import Mathlib

/-!
Verification of the cli-wallet transaction core of Empower1Blockchain.

This file gives a shallow embedding of the Python modules
`cli-wallet/transaction.py`, `cli-wallet/multisig.py` and the wire-export
path of `cli-wallet/client.py`, and proves properties of the canonical
hashing, multi-signature collection and threshold verification code.

Modelling conventions:
* Python byte strings are `List Nat` (each entry one byte, < 256 in all
  states reachable from the real code).
* Python `str` is Lean `String`; Python string comparison (used by
  `sorted(...)` and `list.sort(key=...)`) is code-point lexicographic, which
  `strLe` below implements.
* `hashlib.sha256(...).hexdigest()` is an uninterpreted parameter
  `H : List Nat → String` (respectively `H : String → String` where the
  source hashes the UTF-8 encoding of a JSON string): every theorem that
  involves the digest is proved for an arbitrary hash function.
* ECDSA-P256 signature production uses randomized nonces, so a produced
  signature is passed in as data; cryptographic signature verification
  (the `try: pub_key_obj.verify(...)` block, including hex/point decoding
  failures inside the `try`) is an uninterpreted boolean parameter
  `sigOk : String → String → String → Bool` of (public key hex, signature
  hex, digest hex).
* A Python method that mutates `self` and may `raise` is translated as a
  function returning the post-call object state together with an
  `Option` error; the post state on an error path is the unmodified input,
  exactly as in the source, where no mutation precedes any `raise`.
-/

/-! ### Code-point lexicographic order on strings (Python `sorted`) -/

/-- Lexicographic comparison of character lists by code point; this is the
order Python uses on `str`. -/
def lexLeb : List Char → List Char → Bool
  | [], _ => true
  | _ :: _, [] => false
  | a :: as, b :: bs =>
    if a < b then true
    else if b < a then false
    else lexLeb as bs

/-- Python's `<=` on strings. -/
def strLe (a b : String) : Prop := lexLeb a.data b.data = true

instance : DecidableRel strLe := fun a b =>
  inferInstanceAs (Decidable (lexLeb a.data b.data = true))

theorem lexLeb_refl (xs : List Char) : lexLeb xs xs = true := by
  induction xs with
  | nil => rfl
  | cons a as ih => simp [lexLeb, lt_irrefl, ih]

theorem lexLeb_total (xs ys : List Char) : lexLeb xs ys = true ∨ lexLeb ys xs = true := by
  induction xs generalizing ys with
  | nil => left; rfl
  | cons a as ih =>
    cases ys with
    | nil => right; rfl
    | cons b bs =>
      simp only [lexLeb]
      rcases lt_trichotomy a b with h | h | h
      · left; simp [h]
      · subst h
        rcases ih bs with h4 | h4 <;> simp [lt_irrefl, h4]
      · right; simp [h]

theorem lexLeb_antisymm (xs ys : List Char) (h1 : lexLeb xs ys = true)
    (h2 : lexLeb ys xs = true) : xs = ys := by
  induction xs generalizing ys with
  | nil =>
    cases ys with
    | nil => rfl
    | cons b bs => simp [lexLeb] at h2
  | cons a as ih =>
    cases ys with
    | nil => simp [lexLeb] at h1
    | cons b bs =>
      simp only [lexLeb] at h1 h2
      rcases lt_trichotomy a b with h | h | h
      · simp [h, lt_asymm h] at h2
      · subst h
        simp [lt_irrefl] at h1 h2
        rw [ih bs h1 h2]
      · simp [h, lt_asymm h] at h1

theorem lexLeb_trans (xs ys zs : List Char) (h1 : lexLeb xs ys = true)
    (h2 : lexLeb ys zs = true) : lexLeb xs zs = true := by
  induction xs generalizing ys zs with
  | nil => rfl
  | cons a as ih =>
    cases ys with
    | nil => simp [lexLeb] at h1
    | cons b bs =>
      cases zs with
      | nil => simp [lexLeb] at h2
      | cons c cs =>
        simp only [lexLeb] at h1 h2 ⊢
        rcases lt_trichotomy a b with hab | hab | hab
        · rcases lt_trichotomy b c with hbc | hbc | hbc
          · simp [lt_trans hab hbc]
          · subst hbc; simp [hab]
          · simp [hbc, lt_asymm hbc] at h2
        · subst hab
          rcases lt_trichotomy a c with hac | hac | hac
          · simp [hac]
          · subst hac
            simp [lt_irrefl] at h1 h2 ⊢
            exact ih bs cs h1 h2
          · simp [hac, lt_asymm hac] at h2
        · simp [hab, lt_asymm hab] at h1

instance : IsTotal String strLe := ⟨fun a b => lexLeb_total a.data b.data⟩

instance : IsTrans String strLe :=
  ⟨fun a b c h1 h2 => lexLeb_trans a.data b.data c.data h1 h2⟩

instance : IsRefl String strLe := ⟨fun a => lexLeb_refl a.data⟩

instance : IsAntisymm String strLe := by
  constructor
  intro a b h1 h2
  have h3 := lexLeb_antisymm a.data b.data h1 h2
  cases a; cases b; simp_all

/-- Python's `sorted(list(set(l)))` on a list of strings. -/
def sortDedup (l : List String) : List String :=
  List.insertionSort strLe l.dedup

theorem sortDedup_perm_invariant {l1 l2 : List String} (h : l1.Perm l2) :
    sortDedup l1 = sortDedup l2 := by
  apply List.eq_of_perm_of_sorted (r := strLe)
  · exact ((List.perm_insertionSort strLe l1.dedup).trans h.dedup).trans
      (List.perm_insertionSort strLe l2.dedup).symm
  · exact List.sorted_insertionSort strLe l1.dedup
  · exact List.sorted_insertionSort strLe l2.dedup

theorem sortDedup_eq_self {l : List String}
    (hs : List.Sorted strLe l) (hn : l.Nodup) : sortDedup l = l := by
  unfold sortDedup
  rw [List.dedup_eq_self.mpr hn]
  exact List.eq_of_perm_of_sorted (List.perm_insertionSort strLe l)
    (List.sorted_insertionSort strLe l) hs

theorem sortDedup_sorted (l : List String) : List.Sorted strLe (sortDedup l) :=
  List.sorted_insertionSort strLe l.dedup

theorem sortDedup_nodup (l : List String) : (sortDedup l).Nodup :=
  (List.perm_insertionSort strLe l.dedup).nodup_iff.mpr (List.nodup_dedup l)

theorem sortDedup_length_eq_iff_nodup (l : List String) :
    (sortDedup l).length = l.length ↔ l.Nodup := by
  rw [sortDedup, (List.perm_insertionSort strLe l.dedup).length_eq]
  constructor
  · intro h
    have he := (List.dedup_sublist l).eq_of_length h
    rw [← he]
    exact List.nodup_dedup l
  · intro h
    rw [List.dedup_eq_self.mpr h]

theorem mem_sortDedup {a : String} {l : List String} : a ∈ sortDedup l ↔ a ∈ l := by
  rw [sortDedup, (List.perm_insertionSort strLe l.dedup).mem_iff, List.mem_dedup]

/-! ### Hex strings (Python `bytes.fromhex` / `bytes.hex`) -/

/-- Value of one hex digit, accepting both cases as `bytes.fromhex` does. -/
def hexDigitVal (c : Char) : Option Nat :=
  if 48 ≤ c.toNat ∧ c.toNat ≤ 57 then some (c.toNat - 48)
  else if 97 ≤ c.toNat ∧ c.toNat ≤ 102 then some (c.toNat - 87)
  else if 65 ≤ c.toNat ∧ c.toNat ≤ 70 then some (c.toNat - 55)
  else none

/-- `bytes.fromhex` on a well-formed argument: consumes pairs of hex digits;
`none` models the `ValueError` on odd length or a non-hex character. -/
def hexDecodeChars : List Char → Option (List Nat)
  | [] => some []
  | [_] => none
  | c1 :: c2 :: rest => do
    let h ← hexDigitVal c1
    let l ← hexDigitVal c2
    let bs ← hexDecodeChars rest
    pure ((h * 16 + l) :: bs)

/-- Lowercase hex digit, as produced by `bytes.hex()`. -/
def hexDigitChar (n : Nat) : Char :=
  if n < 10 then Char.ofNat (48 + n) else Char.ofNat (87 + n)

/-- `bytes.hex()`: two lowercase hex digits per byte. -/
def hexEncode (bs : List Nat) : String :=
  ⟨bs.flatMap fun b => [hexDigitChar (b / 16), hexDigitChar (b % 16)]⟩

/-! ### Base64 (Python `base64.b64encode` / `base64.b64decode`) -/

/-- Character of one sextet in the standard base64 alphabet. -/
def b64Char (n : Nat) : Char :=
  if n < 26 then Char.ofNat (65 + n)
  else if n < 52 then Char.ofNat (97 + (n - 26))
  else if n < 62 then Char.ofNat (48 + (n - 52))
  else if n = 62 then '+'
  else '/'

/-- Sextet value of one base64 alphabet character. -/
def b64CharVal (c : Char) : Option Nat :=
  if 65 ≤ c.toNat ∧ c.toNat ≤ 90 then some (c.toNat - 65)
  else if 97 ≤ c.toNat ∧ c.toNat ≤ 122 then some (c.toNat - 71)
  else if 48 ≤ c.toNat ∧ c.toNat ≤ 57 then some (c.toNat + 4)
  else if c = '+' then some 62
  else if c = '/' then some 63
  else none

/-- `base64.b64encode`, producing the standard padded alphabet text. -/
def b64EncodeChars : List Nat → List Char
  | [] => []
  | [a] => [b64Char (a / 4), b64Char (a % 4 * 16), '=', '=']
  | [a, b] => [b64Char (a / 4), b64Char (a % 4 * 16 + b / 16), b64Char (b % 16 * 4), '=']
  | a :: b :: c :: rest =>
    b64Char (a / 4) :: b64Char (a % 4 * 16 + b / 16) :: b64Char (b % 16 * 4 + c / 64) ::
      b64Char (c % 64) :: b64EncodeChars rest

/-- `base64.b64encode(...).decode('utf-8')` as a string. -/
def b64Encode (bs : List Nat) : String := ⟨b64EncodeChars bs⟩

/-- `base64.b64decode` on canonically padded input; `none` models the
raised `binascii.Error` on malformed input. -/
def b64DecodeChars : List Char → Option (List Nat)
  | [] => some []
  | c1 :: c2 :: c3 :: c4 :: rest =>
    if rest = [] ∧ c3 = '=' ∧ c4 = '=' then do
      let s1 ← b64CharVal c1
      let s2 ← b64CharVal c2
      pure [s1 * 4 + s2 / 16]
    else if rest = [] ∧ c4 = '=' then do
      let s1 ← b64CharVal c1
      let s2 ← b64CharVal c2
      let s3 ← b64CharVal c3
      pure [s1 * 4 + s2 / 16, s2 % 16 * 16 + s3 / 4]
    else do
      let s1 ← b64CharVal c1
      let s2 ← b64CharVal c2
      let s3 ← b64CharVal c3
      let s4 ← b64CharVal c4
      let bs ← b64DecodeChars rest
      pure ((s1 * 4 + s2 / 16) :: (s2 % 16 * 16 + s3 / 4) :: (s3 % 4 * 64 + s4) :: bs)
  | _ => none

theorem b64CharVal_b64Char : ∀ s < 64, b64CharVal (b64Char s) = some s := by decide

theorem b64Char_ne_pad : ∀ s < 64, b64Char s ≠ '=' := by decide

theorem b64EncodeChars_ne_nil (bs : List Nat) (h : bs ≠ []) : b64EncodeChars bs ≠ [] := by
  match bs with
  | [] => exact absurd rfl h
  | [a] => simp [b64EncodeChars]
  | [a, b] => simp [b64EncodeChars]
  | a :: b :: c :: rest => simp [b64EncodeChars]

theorem b64_roundtrip : ∀ bs : List Nat, (∀ b ∈ bs, b < 256) →
    b64DecodeChars (b64EncodeChars bs) = some bs
  | [], _ => rfl
  | [a], h => by
    have ha : a < 256 := h a (by simp)
    have e1 := b64CharVal_b64Char (a / 4) (by omega)
    have e2 := b64CharVal_b64Char (a % 4 * 16) (by omega)
    simp only [b64EncodeChars, b64DecodeChars]
    simp [e1, e2, List.cons.injEq]
    omega
  | [a, b], h => by
    have ha : a < 256 := h a (by simp)
    have hb : b < 256 := h b (by simp)
    have e1 := b64CharVal_b64Char (a / 4) (by omega)
    have e2 := b64CharVal_b64Char (a % 4 * 16 + b / 16) (by omega)
    have e3 := b64CharVal_b64Char (b % 16 * 4) (by omega)
    have n3 : b64Char (b % 16 * 4) ≠ '=' := b64Char_ne_pad _ (by omega)
    simp only [b64EncodeChars, b64DecodeChars]
    rw [if_neg (by simp [n3]), if_pos (by simp)]
    simp only [e1, e2, e3, Option.pure_def, Option.bind_eq_bind, Option.some_bind,
      Option.some.injEq, List.cons.injEq]
    refine ⟨by omega, by omega, trivial⟩
  | a :: b :: c :: d :: rest, h => by
    have ha : a < 256 := h a (by simp)
    have hb : b < 256 := h b (by simp)
    have hc : c < 256 := h c (by simp)
    have ih := b64_roundtrip (d :: rest) (fun x hx => h x (by simp [hx]))
    have e1 := b64CharVal_b64Char (a / 4) (by omega)
    have e2 := b64CharVal_b64Char (a % 4 * 16 + b / 16) (by omega)
    have e3 := b64CharVal_b64Char (b % 16 * 4 + c / 64) (by omega)
    have e4 := b64CharVal_b64Char (c % 64) (by omega)
    have n3 : b64Char (b % 16 * 4 + c / 64) ≠ '=' := b64Char_ne_pad _ (by omega)
    have n4 : b64Char (c % 64) ≠ '=' := b64Char_ne_pad _ (by omega)
    show b64DecodeChars (b64Char (a / 4) :: b64Char (a % 4 * 16 + b / 16) ::
      b64Char (b % 16 * 4 + c / 64) :: b64Char (c % 64) :: b64EncodeChars (d :: rest)) =
      some (a :: b :: c :: d :: rest)
    rw [b64DecodeChars]
    rw [if_neg (by simp [n3]), if_neg (by simp [n4])]
    simp only [e1, e2, e3, e4, ih, Option.pure_def, Option.bind_eq_bind, Option.some_bind,
      Option.some.injEq, List.cons.injEq]
    refine ⟨by omega, by omega, by omega, trivial⟩
  | [a, b, c], h => by
    have ha : a < 256 := h a (by simp)
    have hb : b < 256 := h b (by simp)
    have hc : c < 256 := h c (by simp)
    have e1 := b64CharVal_b64Char (a / 4) (by omega)
    have e2 := b64CharVal_b64Char (a % 4 * 16 + b / 16) (by omega)
    have e3 := b64CharVal_b64Char (b % 16 * 4 + c / 64) (by omega)
    have e4 := b64CharVal_b64Char (c % 64) (by omega)
    have n3 : b64Char (b % 16 * 4 + c / 64) ≠ '=' := b64Char_ne_pad _ (by omega)
    have n4 : b64Char (c % 64) ≠ '=' := b64Char_ne_pad _ (by omega)
    show b64DecodeChars (b64Char (a / 4) :: b64Char (a % 4 * 16 + b / 16) ::
      b64Char (b % 16 * 4 + c / 64) :: b64Char (c % 64) :: b64EncodeChars []) =
      some [a, b, c]
    rw [b64DecodeChars]
    rw [if_neg (by simp [n3]), if_neg (by simp [n4])]
    simp only [e1, e2, e3, e4, b64DecodeChars, Option.pure_def, Option.bind_eq_bind,
      Option.some_bind, Option.some.injEq, List.cons.injEq]
    refine ⟨by omega, by omega, by omega, trivial⟩

/-! ### Canonical JSON rendering
`json.dumps(payload, sort_keys=True, separators=(',', ':'))`, restricted to
the value shapes `data_for_hashing` actually places in the payload:
integers, strings, and lists of strings.  The strings placed there are hex
digests, hex keys, base64 text and type tags, none of which contain
characters that `json.dumps` escapes beyond quote and backslash; the
escaper below covers those two. -/

/-- JSON values occurring in the hashing payload. -/
inductive Jval where
  | num (n : Int)
  | str (s : String)
  | arr (xs : List String)
deriving DecidableEq

/-- Escape of one character inside a JSON string literal. -/
def jsonEscapeChar (c : Char) : List Char :=
  if c = '"' then ['\\', '"']
  else if c = '\\' then ['\\', '\\']
  else [c]

/-- A JSON string literal. -/
def jsonStr (s : String) : String :=
  ⟨'"' :: (s.data.flatMap jsonEscapeChar) ++ ['"']⟩

/-- Comma-joined rendering, no incidental whitespace. -/
def joinComma : List String → String
  | [] => ""
  | [x] => x
  | x :: rest => x ++ "," ++ joinComma rest

/-- Rendering of one JSON value. -/
def jsonRenderVal : Jval → String
  | .num n => toString n
  | .str s => jsonStr s
  | .arr xs => "[" ++ joinComma (xs.map jsonStr) ++ "]"

/-- Key order on payload entries (Python sorts dict keys as strings). -/
def kvLe (a b : String × Jval) : Prop := strLe a.1 b.1

instance : DecidableRel kvLe := fun a b => inferInstanceAs (Decidable (strLe a.1 b.1))

/-- `json.dumps(dict, sort_keys=True, separators=(',', ':'))`. -/
def jsonDumpsSorted (kvs : List (String × Jval)) : String :=
  "\x7b" ++
    joinComma ((List.insertionSort kvLe kvs).map fun kv =>
      jsonStr kv.1 ++ ":" ++ jsonRenderVal kv.2) ++
  "\x7d"

/-! ### The transaction data model (`transaction.py`) -/

/-- Transaction type tag `TX_STANDARD`. -/
def TX_STANDARD : String := "standard"

/-- Transaction type tag `TX_CONTRACT_DEPLOY`. -/
def TX_CONTRACT_DEPLOY : String := "contract_deployment"

/-- Transaction type tag `TX_CONTRACT_CALL`. -/
def TX_CONTRACT_CALL : String := "contract_call"

/-- One collected signer contribution (`SignerInfo`). -/
structure SignerInfo where
  public_key_hex : String
  signature_hex : String
deriving DecidableEq

/-- The in-memory `Transaction` object.  `Option` marks fields that are
`None`-able in the Python object; byte-string fields are `List Nat`. -/
structure Transaction where
  id_hex : Option String
  timestamp : Int
  from_address_hex : String
  public_key_hex : Option String
  signature_hex : Option String
  tx_type : String
  to_address_hex : Option String
  amount : Int
  fee : Int
  contract_code_bytes : Option (List Nat)
  target_contract_address_hex : Option String
  function_name : Option String
  arguments_bytes : Option (List Nat)
  required_signatures : Int
  authorized_public_keys_hex : List String
  signers : List SignerInfo
deriving DecidableEq

/-- Python truthiness of an optional string (`None` and `""` are falsy). -/
def strTruthy : Option String → Bool
  | none => false
  | some s =>
    match s.data with
    | [] => false
    | _ :: _ => true

/-- Python truthiness of an optional byte string (`None` and `b""` falsy). -/
def bytesTruthy : Option (List Nat) → Bool
  | none => false
  | some [] => false
  | some (_ :: _) => true

/-- `Transaction.__init__`.  Parameters follow the source signature; a
`None` default corresponds to `none` / `[]`.  `now` stands for
`int(time.time() * 1_000_000_000)`, used only when no timestamp is given.
The constructor performs no validation: it only normalizes
`authorized_public_keys_hex` by `sorted(list(set(...)))` when the argument
is truthy. -/
def txInit (from_address_hex : String) (timestamp : Option Int)
    (to_address_hex : Option String) (amount : Int) (fee : Int)
    (contract_code_bytes : Option (List Nat))
    (target_contract_address_hex : Option String) (function_name : Option String)
    (arguments_bytes : Option (List Nat))
    (public_key_hex : Option String) (signature_hex : Option String)
    (required_signatures : Int) (authorized_public_keys_hex : List String)
    (signers : List SignerInfo) (tx_type : String) (tx_id_hex : Option String)
    (now : Int) : Transaction :=
  { id_hex := tx_id_hex
    timestamp := timestamp.getD now
    from_address_hex := from_address_hex
    public_key_hex := public_key_hex
    signature_hex := signature_hex
    tx_type := tx_type
    to_address_hex := to_address_hex
    amount := amount
    fee := fee
    contract_code_bytes := contract_code_bytes
    target_contract_address_hex := target_contract_address_hex
    function_name := function_name
    arguments_bytes := arguments_bytes
    required_signatures := required_signatures
    authorized_public_keys_hex :=
      if authorized_public_keys_hex = [] then [] else sortDedup authorized_public_keys_hex
    signers := signers }

/-- The constructor's error channel.  `Transaction.__init__` in the source
contains no `raise` statement at all, so the translation is always `ok`;
the type records what the specification claims the constructor can fail
with. -/
inductive InitError where
  | validationError
deriving DecidableEq

/-- `Transaction.__init__` with its (empty) failure channel made explicit. -/
def txInitE (from_address_hex : String) (timestamp : Option Int)
    (to_address_hex : Option String) (amount : Int) (fee : Int)
    (contract_code_bytes : Option (List Nat))
    (target_contract_address_hex : Option String) (function_name : Option String)
    (arguments_bytes : Option (List Nat))
    (public_key_hex : Option String) (signature_hex : Option String)
    (required_signatures : Int) (authorized_public_keys_hex : List String)
    (signers : List SignerInfo) (tx_type : String) (tx_id_hex : Option String)
    (now : Int) : Except InitError Transaction :=
  Except.ok (txInit from_address_hex timestamp to_address_hex amount fee
    contract_code_bytes target_contract_address_hex function_name arguments_bytes
    public_key_hex signature_hex required_signatures authorized_public_keys_hex
    signers tx_type tx_id_hex now)

/-- `Transaction.data_for_hashing`: the canonical, key-sorted, separator-free
JSON encoding of the signable fields. -/
def data_for_hashing (tx : Transaction) : String :=
  let base : List (String × Jval) :=
    [("Fee", Jval.num tx.fee), ("From", Jval.str tx.from_address_hex),
     ("Timestamp", Jval.num tx.timestamp), ("TxType", Jval.str tx.tx_type)]
  let pk : List (String × Jval) :=
    if strTruthy tx.public_key_hex = true ∧ tx.required_signatures = 0 then
      [("PublicKey", Jval.str (tx.public_key_hex.getD ""))]
    else []
  let kind : List (String × Jval) :=
    if tx.tx_type = TX_STANDARD then
      (match tx.to_address_hex with
        | some t => [("To", Jval.str t)]
        | none => []) ++ [("Amount", Jval.num tx.amount)]
    else if tx.tx_type = TX_CONTRACT_DEPLOY then
      (match tx.contract_code_bytes with
        | some code => [("ContractCode", Jval.str (b64Encode code))]
        | none => []) ++ [("Amount", Jval.num tx.amount)]
    else if tx.tx_type = TX_CONTRACT_CALL then
      (match tx.target_contract_address_hex with
        | some t => [("TargetContractAddress", Jval.str t)]
        | none => []) ++
      (match tx.function_name with
        | some f => [("FunctionName", Jval.str f)]
        | none => []) ++
      (match tx.arguments_bytes with
        | some a => [("Arguments", Jval.str (b64Encode a))]
        | none => []) ++
      [("Amount", Jval.num tx.amount)]
    else []
  let msig : List (String × Jval) :=
    if tx.required_signatures > 0 ∧ tx.authorized_public_keys_hex.length > 0 then
      [("RequiredSignatures", Jval.num tx.required_signatures),
       ("AuthorizedPublicKeys", Jval.arr (sortDedup tx.authorized_public_keys_hex))]
    else []
  jsonDumpsSorted (base ++ pk ++ kind ++ msig)

/-- `Transaction.calculate_hash`: SHA-256 hex digest of the canonical
encoding, for an arbitrary hash function `H`. -/
def calculate_hash (H : String → String) (tx : Transaction) : String :=
  H (data_for_hashing tx)

/-- The `ValueError`s that `add_signature` can raise. -/
inductive TxError where
  | notMultisig
  | unauthorizedSigner
  | contentMismatch
deriving DecidableEq

/-- Sort key used by `self.signers.sort(key=lambda s: s.public_key_hex)`. -/
def signerLe (a b : SignerInfo) : Prop := strLe a.public_key_hex b.public_key_hex

instance : DecidableRel signerLe := fun a b =>
  inferInstanceAs (Decidable (strLe a.public_key_hex b.public_key_hex))

/-- In-place sort of the collected signers by public key hex. -/
def sortSigners (l : List SignerInfo) : List SignerInfo :=
  List.insertionSort signerLe l

/-- `Transaction.add_signature`.  The signer's key pair is abstracted to
its derived public key hex `signer_public_key_hex` and the DER signature
hex `signature_hex` it produces over the digest.  Returns the post-call
object state and the raised error, if any. -/
def add_signature (H : String → String) (tx : Transaction)
    (signer_public_key_hex : String) (signature_hex : String) :
    Transaction × Option TxError :=
  if ¬(tx.required_signatures > 0 ∧ tx.authorized_public_keys_hex.length > 0) then
    (tx, some TxError.notMultisig)
  else if signer_public_key_hex ∉ tx.authorized_public_keys_hex then
    (tx, some TxError.unauthorizedSigner)
  else if tx.signers.any fun s => decide (s.public_key_hex = signer_public_key_hex) then
    (tx, none)
  else
    if strTruthy tx.id_hex = false then
      ({ tx with id_hex := some (calculate_hash H tx),
                 signers := sortSigners (tx.signers ++ [⟨signer_public_key_hex, signature_hex⟩]) },
       none)
    else if tx.id_hex ≠ some (calculate_hash H tx) then
      (tx, some TxError.contentMismatch)
    else
      ({ tx with signers := sortSigners (tx.signers ++ [⟨signer_public_key_hex, signature_hex⟩]) },
       none)

/-- The per-signer loop of `verify_signatures_python` (multi-sig branch):
walks the collected signers, tracking the set `signed_pub_keys` and the
counter `valid_unique_signatures`; `none` is the early `return False`. -/
def verifyGroupLoop (auth : List String) (ok : String → String → Bool) :
    List SignerInfo → List String → Int → Option Int
  | [], _, cnt => some cnt
  | s :: rest, seen, cnt =>
    if s.public_key_hex ∉ auth then none
    else if s.public_key_hex ∈ seen then none
    else if ok s.public_key_hex s.signature_hex then
      verifyGroupLoop auth ok rest (s.public_key_hex :: seen) (cnt + 1)
    else none

/-- `Transaction.verify_signatures_python`, for arbitrary hash `H` and
signature-check oracle `sigOk`. -/
def verify_signatures_python (H : String → String)
    (sigOk : String → String → String → Bool) (tx : Transaction) : Bool :=
  let content_hash_hex := calculate_hash H tx
  if tx.required_signatures > 0 then
    if (tx.signers.length : Int) < tx.required_signatures then false
    else
      match verifyGroupLoop tx.authorized_public_keys_hex
          (fun pk sg => sigOk pk sg content_hash_hex) tx.signers [] 0 with
      | none => false
      | some c => decide (c ≥ tx.required_signatures)
  else
    if strTruthy tx.public_key_hex = false ∨ strTruthy tx.signature_hex = false then false
    else sigOk (tx.public_key_hex.getD "") (tx.signature_hex.getD "") content_hash_hex

/-! ### File persistence (`to_dict_for_file` / `from_dict_for_file`) -/

/-- The dictionary written by `to_dict_for_file` (and read back by
`from_dict_for_file`): string fields hold the hex text stored in the
object; the two byte-string fields hold base64 text or `None`. -/
structure TxFileDict where
  id_hex : Option String
  timestamp : Int
  from_address_hex : String
  public_key_hex : Option String
  signature_hex : Option String
  tx_type : String
  to_address_hex : Option String
  amount : Int
  fee : Int
  contract_code_bytes_b64 : Option String
  target_contract_address_hex : Option String
  function_name : Option String
  arguments_bytes_b64 : Option String
  required_signatures : Int
  authorized_public_keys_hex : List String
  signers : List SignerInfo
deriving DecidableEq

/-- `Transaction.to_dict_for_file`. -/
def to_dict_for_file (tx : Transaction) : TxFileDict :=
  { id_hex := tx.id_hex
    timestamp := tx.timestamp
    from_address_hex := tx.from_address_hex
    public_key_hex := tx.public_key_hex
    signature_hex := tx.signature_hex
    tx_type := tx.tx_type
    to_address_hex := tx.to_address_hex
    amount := tx.amount
    fee := tx.fee
    contract_code_bytes_b64 :=
      if bytesTruthy tx.contract_code_bytes then
        some (b64Encode (tx.contract_code_bytes.getD []))
      else none
    target_contract_address_hex := tx.target_contract_address_hex
    function_name := tx.function_name
    arguments_bytes_b64 :=
      if bytesTruthy tx.arguments_bytes then
        some (b64Encode (tx.arguments_bytes.getD []))
      else none
    required_signatures := tx.required_signatures
    authorized_public_keys_hex := tx.authorized_public_keys_hex
    signers := tx.signers }

/-- `base64.b64decode(data[k]) if data.get(k) else None` for one optional
base64 field: outer `none` is the raised decode error, inner `none` the
Python `None`. -/
def decodeB64Field (f : Option String) : Option (Option (List Nat)) :=
  match f with
  | none => some none
  | some s =>
    match s.data with
    | [] => some none
    | _ :: _ =>
      match b64DecodeChars s.data with
      | none => none
      | some bs => some (some bs)

/-- `Transaction.from_dict_for_file`: rebuilds the object through the
constructor; `none` is a raised base64 decode error. -/
def from_dict_for_file (d : TxFileDict) (now : Int) : Option Transaction := do
  let code ← decodeB64Field d.contract_code_bytes_b64
  let args ← decodeB64Field d.arguments_bytes_b64
  pure (txInit d.from_address_hex (some d.timestamp) d.to_address_hex d.amount d.fee
    code d.target_contract_address_hex d.function_name args
    d.public_key_hex d.signature_hex d.required_signatures d.authorized_public_keys_hex
    d.signers d.tx_type d.id_hex now)

/-! ### Group identifier derivation (`multisig.py`) -/

/-- The `ValueError`s that `derive_multisig_address` can raise. -/
inductive MsigError where
  | mOutOfRange
  | emptyKeyList
  | duplicateKeys
  | mTooLarge
  | invalidKey
deriving DecidableEq

/-- `pubkey_hex.startswith('04')`. -/
def startsWith04 (k : String) : Bool :=
  match k.data with
  | '0' :: '4' :: _ => true
  | _ => false

/-- The uncompressed-P256 check applied to each key: the hex text decodes,
starts with the characters `04`, and decodes to exactly 65 bytes. -/
def goodKey (k : String) : Bool :=
  match hexDecodeChars k.data with
  | none => false
  | some bs => startsWith04 k && decide (bs.length = 65)

/-- The per-key loop of `derive_multisig_address`: decodes each sorted key
and feeds its bytes to the hasher, failing on the first malformed key
(decode failure and format failure both surface as `ValueError`). -/
def collectKeyBytes : List String → Except MsigError (List Nat)
  | [] => Except.ok []
  | k :: rest =>
    match hexDecodeChars k.data with
    | none => Except.error MsigError.invalidKey
    | some bs =>
      if startsWith04 k = false ∨ bs.length ≠ 65 then Except.error MsigError.invalidKey
      else
        match collectKeyBytes rest with
        | Except.error e => Except.error e
        | Except.ok tail => Except.ok (bs ++ tail)

/-- `derive_multisig_address(m_required, authorized_pubkey_hex_list)`:
SHA-256 (as `H`) of the single byte `m_required` followed by the
concatenated bytes of the sorted deduplicated keys. -/
def derive_multisig_address (H : List Nat → String) (m_required : Nat)
    (authorized_pubkey_hex_list : List String) : Except MsigError String :=
  if ¬(1 ≤ m_required ∧ m_required ≤ authorized_pubkey_hex_list.length) then
    Except.error MsigError.mOutOfRange
  else if authorized_pubkey_hex_list.length = 0 then
    Except.error MsigError.emptyKeyList
  else if (sortDedup authorized_pubkey_hex_list).length ≠ authorized_pubkey_hex_list.length then
    Except.error MsigError.duplicateKeys
  else if m_required > 255 then
    Except.error MsigError.mTooLarge
  else
    match collectKeyBytes (sortDedup authorized_pubkey_hex_list) with
    | Except.error e => Except.error e
    | Except.ok keyBytes => Except.ok (H (m_required :: keyBytes))

/-- Whether an `Except` computation raised. -/
def exceptFails {ε α : Type} : Except ε α → Bool
  | Except.error _ => true
  | Except.ok _ => false

/-! ### Basic facts about `add_signature` -/

/-- The canonical encoding reads neither `id_hex` nor `signers`. -/
theorem data_for_hashing_irrel (tx : Transaction) (i : Option String) (s : List SignerInfo) :
    data_for_hashing { tx with id_hex := i, signers := s } = data_for_hashing tx := rfl

/-- `add_signature` never changes the canonical encoding of the transaction. -/
theorem add_signature_dfh (H : String → String) (tx : Transaction) (pk sg : String) :
    data_for_hashing (add_signature H tx pk sg).1 = data_for_hashing tx := by
  unfold add_signature
  repeat' split
  all_goals rfl

/-- Once `id_hex` is truthy, `add_signature` leaves it unchanged. -/
theorem add_signature_id (H : String → String) (tx : Transaction) (pk sg : String)
    (h : strTruthy tx.id_hex = true) :
    (add_signature H tx pk sg).1.id_hex = tx.id_hex := by
  unfold add_signature
  repeat' split
  all_goals simp_all

/-- `add_signature` changes neither the threshold nor the authorized keys. -/
theorem add_signature_meta (H : String → String) (tx : Transaction) (pk sg : String) :
    (add_signature H tx pk sg).1.required_signatures = tx.required_signatures ∧
      (add_signature H tx pk sg).1.authorized_public_keys_hex =
        tx.authorized_public_keys_hex := by
  unfold add_signature
  repeat' split
  all_goals exact ⟨rfl, rfl⟩

/-- A sequence of `add_signature` calls, one per (signer key, produced
signature) pair, stopping at the first raised error — the multi-session
signing workflow. -/
def applyAdds (H : String → String) :
    List (String × String) → Transaction → Transaction × Option TxError
  | [], tx => (tx, none)
  | p :: rest, tx =>
    match add_signature H tx p.1 p.2 with
    | (tx1, none) => applyAdds H rest tx1
    | (tx1, some e) => (tx1, some e)

theorem applyAdds_preserves (H : String → String) :
    ∀ (ps : List (String × String)) (tx tx' : Transaction),
      applyAdds H ps tx = (tx', none) →
      data_for_hashing tx' = data_for_hashing tx ∧
        (strTruthy tx.id_hex = true → tx'.id_hex = tx.id_hex)
  | [], tx, tx', h => by
    unfold applyAdds at h
    injection h with h1 h2
    subst h1
    exact ⟨rfl, fun _ => rfl⟩
  | p :: rest, tx, tx', h => by
    unfold applyAdds at h
    rcases hs : add_signature H tx p.1 p.2 with ⟨tx1, e⟩
    rw [hs] at h
    cases e with
    | some e0 => simp at h
    | none =>
      have ih := applyAdds_preserves H rest tx1 tx' h
      have hd : data_for_hashing tx1 = data_for_hashing tx := by
        have := add_signature_dfh H tx p.1 p.2
        rw [hs] at this
        exact this
      refine ⟨ih.1.trans hd, fun ht => ?_⟩
      have hid : tx1.id_hex = tx.id_hex := by
        have := add_signature_id H tx p.1 p.2 ht
        rw [hs] at this
        exact this
      have ht1 : strTruthy tx1.id_hex = true := by rw [hid]; exact ht
      rw [ih.2 ht1, hid]

/-- Claim C1: for a group-mode transaction, the canonical digest
(`calculate_hash` over `data_for_hashing`) does not depend on the
collected-signers list — appending any number of group signatures through
`add_signature` leaves both the canonical encoding and its digest
unchanged, and once `id_hex` is set (truthy) no successful sequence of
`add_signature` calls changes it. -/
theorem group_digest_stable_under_add_signature (H : String → String)
    (tx tx' : Transaction) (ps : List (String × String))
    (_hgroup : tx.required_signatures > 0)
    (h : applyAdds H ps tx = (tx', none)) :
    calculate_hash H tx' = calculate_hash H tx ∧
      data_for_hashing tx' = data_for_hashing tx ∧
      (strTruthy tx.id_hex = true → tx'.id_hex = tx.id_hex) := by
  obtain ⟨h1, h2⟩ := applyAdds_preserves H ps tx tx' h
  exact ⟨by rw [calculate_hash, calculate_hash, h1], h1, h2⟩

/-- A fixed stand-in for the SHA-256 hex digest function in witnesses. -/
def Hconst : String → String := fun _ => "h"

/-- A concrete 2-of-2 group transaction whose identifier is already fixed
to the (stand-in) digest of its content. -/
def txC1 : Transaction :=
  ⟨some "h", 1, "maddr", none, none, TX_STANDARD, some "r", 500, 5,
    none, none, none, none, 2, ["a", "b"], []⟩

/-- Signature contributions of the two authorized signers. -/
def psC1 : List (String × String) := [("a", "s1"), ("b", "s2")]

/-- The state after both signers appended. -/
def txC1res : Transaction := (applyAdds Hconst psC1 txC1).1

theorem group_digest_stable_under_add_signature_witness :
    txC1.required_signatures > 0 ∧
      applyAdds Hconst psC1 txC1 = (txC1res, none) ∧
      calculate_hash Hconst txC1res = calculate_hash Hconst txC1 ∧
      data_for_hashing txC1res = data_for_hashing txC1 ∧
      (strTruthy txC1.id_hex = true → txC1res.id_hex = txC1.id_hex) :=
  ⟨by decide, by decide,
    (group_digest_stable_under_add_signature Hconst txC1 txC1res psC1
      (by decide) (by decide)).1,
    (group_digest_stable_under_add_signature Hconst txC1 txC1res psC1
      (by decide) (by decide)).2.1,
    (group_digest_stable_under_add_signature Hconst txC1 txC1res psC1
      (by decide) (by decide)).2.2⟩

/-! ### The group branch of `verify_signatures_python` -/

theorem verifyGroupLoop_ok (auth : List String) (ok : String → String → Bool) :
    ∀ (l : List SignerInfo) (seen : List String) (cnt : Int),
      (∀ s ∈ l, s.public_key_hex ∈ auth) →
      (∀ s ∈ l, ok s.public_key_hex s.signature_hex = true) →
      (l.map fun s => s.public_key_hex).Nodup →
      (∀ s ∈ l, s.public_key_hex ∉ seen) →
      verifyGroupLoop auth ok l seen cnt = some (cnt + l.length)
  | [], seen, cnt, _, _, _, _ => by simp [verifyGroupLoop]
  | s :: rest, seen, cnt, h1, h2, h3, h4 => by
    have hm : s.public_key_hex ∈ auth := h1 s (by simp)
    have hns : s.public_key_hex ∉ seen := h4 s (by simp)
    have hok : ok s.public_key_hex s.signature_hex = true := h2 s (by simp)
    rw [List.map_cons, List.nodup_cons] at h3
    obtain ⟨hhd, htl⟩ := h3
    have ih := verifyGroupLoop_ok auth ok rest (s.public_key_hex :: seen) (cnt + 1)
      (fun x hx => h1 x (by simp [hx]))
      (fun x hx => h2 x (by simp [hx]))
      htl
      (fun x hx => by
        intro hmem
        rcases List.mem_cons.mp hmem with he | hseen
        · exact hhd (he ▸ List.mem_map_of_mem (fun t => t.public_key_hex) hx)
        · exact h4 x (by simp [hx]) hseen)
    rw [verifyGroupLoop, if_neg (by simpa using hm), if_neg hns, if_pos hok, ih]
    congr 1
    simp
    omega

theorem verifyGroupLoop_some (auth : List String) (ok : String → String → Bool) :
    ∀ (l : List SignerInfo) (seen : List String) (cnt c : Int),
      verifyGroupLoop auth ok l seen cnt = some c →
      (∀ s ∈ l, s.public_key_hex ∈ auth ∧ ok s.public_key_hex s.signature_hex = true ∧
        s.public_key_hex ∉ seen) ∧
      (l.map fun s => s.public_key_hex).Nodup ∧ c = cnt + l.length
  | [], seen, cnt, c, h => by
    simp [verifyGroupLoop] at h
    simp [h]
  | s :: rest, seen, cnt, c, h => by
    rw [verifyGroupLoop] at h
    by_cases h1 : s.public_key_hex ∉ auth
    · rw [if_pos h1] at h; exact absurd h (by simp)
    rw [if_neg h1] at h
    by_cases h2 : s.public_key_hex ∈ seen
    · rw [if_pos h2] at h; exact absurd h (by simp)
    rw [if_neg h2] at h
    by_cases h3 : ok s.public_key_hex s.signature_hex = true
    · rw [if_pos h3] at h
      obtain ⟨hmem, hnd, hc⟩ := verifyGroupLoop_some auth ok rest
        (s.public_key_hex :: seen) (cnt + 1) c h
      refine ⟨?_, ?_, ?_⟩
      · intro x hx
        rcases List.mem_cons.mp hx with he | ht
        · subst he
          exact ⟨not_not.mp h1, h3, h2⟩
        · obtain ⟨ha, hb, hc2⟩ := hmem x ht
          exact ⟨ha, hb, fun hs => hc2 (by simp [hs])⟩
      · rw [List.map_cons, List.nodup_cons]
        refine ⟨?_, hnd⟩
        intro hin
        obtain ⟨x, hx, he⟩ := List.mem_map.mp hin
        exact (hmem x hx).2.2 (by simp [he])
      · simp at hc ⊢
        omega
    · rw [if_neg h3] at h; exact absurd h (by simp)

/-- The multi-sig branch of `verify_signatures_python` succeeds exactly when
the threshold is reached and every collected signer is authorized, distinct
and carries a cryptographically valid signature over the recomputed
digest. -/
theorem verify_group_iff (H : String → String)
    (sigOk : String → String → String → Bool) (tx : Transaction)
    (hM : tx.required_signatures > 0) :
    verify_signatures_python H sigOk tx = true ↔
      (tx.required_signatures ≤ (tx.signers.length : Int)
        ∧ (∀ s ∈ tx.signers, s.public_key_hex ∈ tx.authorized_public_keys_hex)
        ∧ (tx.signers.map fun s => s.public_key_hex).Nodup
        ∧ (∀ s ∈ tx.signers,
            sigOk s.public_key_hex s.signature_hex (calculate_hash H tx) = true)) := by
  unfold verify_signatures_python
  rw [if_pos hM]
  by_cases hlen : (tx.signers.length : Int) < tx.required_signatures
  · rw [if_pos hlen]
    simp only [Bool.false_eq_true, false_iff]
    rintro ⟨hle, -⟩
    omega
  · rw [if_neg hlen]
    cases hloop : verifyGroupLoop tx.authorized_public_keys_hex
        (fun pk sg => sigOk pk sg (calculate_hash H tx)) tx.signers [] 0 with
    | none =>
      simp only [Bool.false_eq_true, false_iff]
      rintro ⟨-, hmem, hnd, hok⟩
      have := verifyGroupLoop_ok tx.authorized_public_keys_hex
        (fun pk sg => sigOk pk sg (calculate_hash H tx)) tx.signers [] 0
        hmem hok hnd (by simp)
      rw [hloop] at this
      exact absurd this (by simp)
    | some c =>
      obtain ⟨hfacts, hnd, hc⟩ := verifyGroupLoop_some _ _ _ _ _ _ hloop
      simp only [decide_eq_true_eq, ge_iff_le]
      constructor
      · intro hge
        refine ⟨by omega, fun s hs => (hfacts s hs).1, hnd,
          fun s hs => (hfacts s hs).2.1⟩
      · rintro ⟨hge, -, -, -⟩
        omega

/-- Claim C2: for a transaction in group mode (`required_signatures > 0`),
verification fails when fewer signers than the threshold were collected;
it fails when some collected signer is not authorized, when some key
appears twice, or when some collected signature fails the cryptographic
check against the freshly recomputed digest; and it succeeds exactly when
the collected signers are at least `M` many and all distinct, authorized
and valid (in which case the count of distinct valid authorized signatures
is the signer count, hence at least `M`). -/
theorem group_verification_characterization (H : String → String)
    (sigOk : String → String → String → Bool) (tx : Transaction)
    (hM : tx.required_signatures > 0) :
    ((tx.signers.length : Int) < tx.required_signatures →
      verify_signatures_python H sigOk tx = false)
    ∧ ((∃ s ∈ tx.signers, s.public_key_hex ∉ tx.authorized_public_keys_hex) →
      verify_signatures_python H sigOk tx = false)
    ∧ (¬ (tx.signers.map fun s => s.public_key_hex).Nodup →
      verify_signatures_python H sigOk tx = false)
    ∧ ((∃ s ∈ tx.signers,
        sigOk s.public_key_hex s.signature_hex (calculate_hash H tx) = false) →
      verify_signatures_python H sigOk tx = false)
    ∧ (verify_signatures_python H sigOk tx = true ↔
      (tx.required_signatures ≤ (tx.signers.length : Int)
        ∧ (∀ s ∈ tx.signers, s.public_key_hex ∈ tx.authorized_public_keys_hex)
        ∧ (tx.signers.map fun s => s.public_key_hex).Nodup
        ∧ (∀ s ∈ tx.signers,
            sigOk s.public_key_hex s.signature_hex (calculate_hash H tx) = true))) := by
  have hiff := verify_group_iff H sigOk tx hM
  refine ⟨?_, ?_, ?_, ?_, hiff⟩
  · intro hlt
    apply Bool.eq_false_iff.mpr
    intro htrue
    obtain ⟨hge, -, -, -⟩ := hiff.mp htrue
    omega
  · rintro ⟨s, hs, hbad⟩
    apply Bool.eq_false_iff.mpr
    intro htrue
    obtain ⟨-, hmem, -, -⟩ := hiff.mp htrue
    exact hbad (hmem s hs)
  · intro hbad
    apply Bool.eq_false_iff.mpr
    intro htrue
    obtain ⟨-, -, hnd, -⟩ := hiff.mp htrue
    exact hbad hnd
  · rintro ⟨s, hs, hbad⟩
    apply Bool.eq_false_iff.mpr
    intro htrue
    obtain ⟨-, -, -, hok⟩ := hiff.mp htrue
    rw [hok s hs] at hbad
    exact absurd hbad (by simp)

/-- A signature-check oracle that accepts everything, for witnesses. -/
def sigOkTrue : String → String → String → Bool := fun _ _ _ => true

/-- A concrete 1-of-1 group transaction carrying its one signature. -/
def txC2 : Transaction :=
  ⟨some "h", 1, "maddr", none, none, TX_STANDARD, some "r", 500, 5,
    none, none, none, none, 1, ["a"], [⟨"a", "sig"⟩]⟩

theorem group_verification_characterization_witness :
    txC2.required_signatures > 0 ∧
      (verify_signatures_python Hconst sigOkTrue txC2 = true ↔
        (txC2.required_signatures ≤ (txC2.signers.length : Int)
          ∧ (∀ s ∈ txC2.signers, s.public_key_hex ∈ txC2.authorized_public_keys_hex)
          ∧ (txC2.signers.map fun s => s.public_key_hex).Nodup
          ∧ (∀ s ∈ txC2.signers,
              sigOkTrue s.public_key_hex s.signature_hex (calculate_hash Hconst txC2) = true))) :=
  ⟨by decide,
    (group_verification_characterization Hconst sigOkTrue txC2 (by decide)).2.2.2.2⟩

/-! ### `add_signature` branch behaviour (claims C3, C5, C6) -/

/-- When the signer already appears among the collected signers the call
returns `True` without touching the object. -/
theorem add_signature_noop_of_signed (H : String → String) (tx : Transaction)
    (pk sg : String)
    (hg : tx.required_signatures > 0 ∧ tx.authorized_public_keys_hex.length > 0)
    (hauth : pk ∈ tx.authorized_public_keys_hex)
    (hany : (tx.signers.any fun s => decide (s.public_key_hex = pk)) = true) :
    add_signature H tx pk sg = (tx, none) := by
  unfold add_signature
  rw [if_neg (not_not_intro hg), if_neg (not_not_intro hauth), if_pos hany]

/-- Claim C3: for a group-mode transaction and an authorized, not-yet-signed
key, a successful `add_signature` with no identifier yet fixes `id_hex` to
the freshly computed canonical digest; and when an identifier exists but the
freshly computed digest differs, `add_signature` raises
`ContentMismatchError` and leaves the object — in particular the
collected-signers list — unchanged. -/
theorem add_signature_fixes_or_checks_id (H : String → String) (tx : Transaction)
    (pk sg : String)
    (hM : tx.required_signatures > 0)
    (hauth : pk ∈ tx.authorized_public_keys_hex)
    (hnew : ∀ s ∈ tx.signers, s.public_key_hex ≠ pk) :
    (strTruthy tx.id_hex = false →
      add_signature H tx pk sg =
        ({ tx with id_hex := some (calculate_hash H tx),
                   signers := sortSigners (tx.signers ++ [⟨pk, sg⟩]) }, none))
    ∧ (strTruthy tx.id_hex = true → tx.id_hex ≠ some (calculate_hash H tx) →
      add_signature H tx pk sg = (tx, some TxError.contentMismatch)) := by
  have hg : tx.required_signatures > 0 ∧ tx.authorized_public_keys_hex.length > 0 :=
    ⟨hM, List.length_pos.mpr (List.ne_nil_of_mem hauth)⟩
  have hany : (tx.signers.any fun s => decide (s.public_key_hex = pk)) = false := by
    rw [List.any_eq_false]
    intro s hs
    simpa using hnew s hs
  constructor
  · intro hid
    unfold add_signature
    rw [if_neg (not_not_intro hg), if_neg (not_not_intro hauth),
      if_neg (by simp [hany]), if_pos hid]
  · intro hid hneq
    unfold add_signature
    rw [if_neg (not_not_intro hg), if_neg (not_not_intro hauth),
      if_neg (by simp [hany]), if_neg (by simp [hid]), if_pos hneq]

/-- Claim C5: in group mode, signing with a key outside the authorized list
raises `UnauthorizedSignerError` and leaves the object — in particular the
collected-signers list — unmodified. -/
theorem add_signature_unauthorized (H : String → String) (tx : Transaction)
    (pk sg : String)
    (hM : tx.required_signatures > 0)
    (hN : tx.authorized_public_keys_hex.length > 0)
    (hout : pk ∉ tx.authorized_public_keys_hex) :
    add_signature H tx pk sg = (tx, some TxError.unauthorizedSigner) := by
  unfold add_signature
  rw [if_neg (not_not_intro ⟨hM, hN⟩), if_pos hout]

/-- Claim C6: `add_signature` is idempotent per signer.  If the signer's key
already appears among the collected signers, the call succeeds as a no-op
(no error, state unchanged); and after any successful call, repeating the
call for the same key leaves the reached state unchanged, so signing twice
converges to the same state as signing once. -/
theorem add_signature_idempotent (H : String → String) (tx : Transaction)
    (pk sg sg2 : String)
    (hM : tx.required_signatures > 0)
    (hauth : pk ∈ tx.authorized_public_keys_hex) :
    ((∃ s ∈ tx.signers, s.public_key_hex = pk) →
      add_signature H tx pk sg = (tx, none))
    ∧ (∀ tx1 : Transaction, add_signature H tx pk sg = (tx1, none) →
      add_signature H tx1 pk sg2 = (tx1, none)) := by
  have hg : tx.required_signatures > 0 ∧ tx.authorized_public_keys_hex.length > 0 :=
    ⟨hM, List.length_pos.mpr (List.ne_nil_of_mem hauth)⟩
  constructor
  · rintro ⟨s, hs, he⟩
    exact add_signature_noop_of_signed H tx pk sg hg hauth
      (List.any_eq_true.mpr ⟨s, hs, by simp [he]⟩)
  · intro tx1 h
    by_cases hany : (tx.signers.any fun s => decide (s.public_key_hex = pk)) = true
    · have h0 := add_signature_noop_of_signed H tx pk sg hg hauth hany
      rw [h0] at h
      injection h with h1 h2
      subst h1
      exact add_signature_noop_of_signed H tx pk sg2 hg hauth hany
    · have hany' : (tx.signers.any fun s => decide (s.public_key_hex = pk)) = false :=
        Bool.eq_false_iff.mpr hany
      have happend : ∀ tx2 : Transaction,
          tx2.required_signatures = tx.required_signatures →
          tx2.authorized_public_keys_hex = tx.authorized_public_keys_hex →
          tx2.signers = sortSigners (tx.signers ++ [⟨pk, sg⟩]) →
          add_signature H tx2 pk sg2 = (tx2, none) := by
        intro tx2 e1 e2 e3
        apply add_signature_noop_of_signed H tx2 pk sg2
        · rw [e1, e2]; exact hg
        · rw [e2]; exact hauth
        · rw [e3]
          apply List.any_eq_true.mpr
          refine ⟨⟨pk, sg⟩, ?_, by simp⟩
          exact (List.perm_insertionSort signerLe _).mem_iff.mpr (by simp)
      unfold add_signature at h
      rw [if_neg (not_not_intro hg), if_neg (not_not_intro hauth),
        if_neg (by simp [hany'])] at h
      by_cases hid : strTruthy tx.id_hex = false
      · rw [if_pos hid] at h
        injection h with h1 h2
        subst h1
        exact happend _ rfl rfl rfl
      · rw [if_neg hid] at h
        by_cases hmis : tx.id_hex ≠ some (calculate_hash H tx)
        · rw [if_pos hmis] at h
          exact absurd h (by simp)
        · rw [if_neg hmis] at h
          injection h with h1 h2
          subst h1
          exact happend _ rfl rfl rfl

/-- Concrete group transaction with no identifier yet, not yet signed. -/
def txC3a : Transaction :=
  ⟨none, 1, "maddr", none, none, TX_STANDARD, some "r", 500, 5,
    none, none, none, none, 1, ["a"], []⟩

/-- Concrete group transaction whose stored identifier cannot be the
recomputed digest (the stand-in digest of any content is `"h"`). -/
def txC3b : Transaction :=
  ⟨some "x", 1, "maddr", none, none, TX_STANDARD, some "r", 500, 5,
    none, none, none, none, 1, ["a"], []⟩

theorem add_signature_fixes_or_checks_id_witness :
    (txC3a.required_signatures > 0 ∧ strTruthy txC3a.id_hex = false ∧
      add_signature Hconst txC3a "a" "s" =
        ({ txC3a with id_hex := some (calculate_hash Hconst txC3a),
                      signers := sortSigners (txC3a.signers ++ [⟨"a", "s"⟩]) }, none))
    ∧ (strTruthy txC3b.id_hex = true ∧ txC3b.id_hex ≠ some (calculate_hash Hconst txC3b) ∧
      add_signature Hconst txC3b "a" "s" = (txC3b, some TxError.contentMismatch)) :=
  ⟨⟨by decide, by decide,
    (add_signature_fixes_or_checks_id Hconst txC3a "a" "s" (by decide) (by decide)
      (by decide)).1 (by decide)⟩,
   ⟨by decide, by decide,
    (add_signature_fixes_or_checks_id Hconst txC3b "a" "s" (by decide) (by decide)
      (by decide)).2 (by decide) (by decide)⟩⟩

/-- Concrete group transaction used against an unauthorized signer. -/
def txC5 : Transaction :=
  ⟨none, 1, "maddr", none, none, TX_STANDARD, some "r", 500, 5,
    none, none, none, none, 1, ["a"], []⟩

theorem add_signature_unauthorized_witness :
    txC5.required_signatures > 0 ∧ txC5.authorized_public_keys_hex.length > 0 ∧
      "z" ∉ txC5.authorized_public_keys_hex ∧
      add_signature Hconst txC5 "z" "s" = (txC5, some TxError.unauthorizedSigner) :=
  ⟨by decide, by decide, by decide,
    add_signature_unauthorized Hconst txC5 "z" "s" (by decide) (by decide) (by decide)⟩

/-- Concrete 1-of-1 group transaction already signed by its one signer. -/
def txC6 : Transaction :=
  ⟨some "h", 1, "maddr", none, none, TX_STANDARD, some "r", 500, 5,
    none, none, none, none, 1, ["a"], [⟨"a", "sig"⟩]⟩

theorem add_signature_idempotent_witness :
    txC6.required_signatures > 0 ∧ "a" ∈ txC6.authorized_public_keys_hex ∧
      (∃ s ∈ txC6.signers, s.public_key_hex = "a") ∧
      add_signature Hconst txC6 "a" "s2" = (txC6, none) :=
  ⟨by decide, by decide, by decide,
    (add_signature_idempotent Hconst txC6 "a" "s2" "s3" (by decide) (by decide)).1
      (by decide)⟩

/-! ### Group identifier derivation (claims C4, C7) -/

/-- `derive_multisig_address` only looks at the input key list through its
length and its sorted deduplication, so it is invariant under permutation
of the input — on the error paths as well as on success. -/
theorem derive_perm_invariant (H : List Nat → String) (m : Nat)
    {keys keys2 : List String} (h : keys.Perm keys2) :
    derive_multisig_address H m keys = derive_multisig_address H m keys2 := by
  unfold derive_multisig_address
  rw [h.length_eq, sortDedup_perm_invariant h]

theorem collectKeyBytes_ok : ∀ l : List String, (∀ k ∈ l, goodKey k = true) →
    collectKeyBytes l = Except.ok (l.flatMap fun k => (hexDecodeChars k.data).getD [])
  | [], _ => rfl
  | k :: rest, h => by
    have hk : goodKey k = true := h k (by simp)
    rcases hd : hexDecodeChars k.data with _ | bs
    · rw [goodKey, hd] at hk
      exact absurd hk (by simp)
    · rw [goodKey, hd] at hk
      simp only [Bool.and_eq_true, decide_eq_true_eq] at hk
      obtain ⟨h04, hlen⟩ := hk
      have ih := collectKeyBytes_ok rest (fun x hx => h x (by simp [hx]))
      simp only [collectKeyBytes, hd]
      rw [if_neg (by simp [h04, hlen]), ih]
      simp [hd]

theorem collectKeyBytes_bad : ∀ l : List String, (∃ k ∈ l, goodKey k = false) →
    ∃ e, collectKeyBytes l = Except.error e
  | [], h => by simp at h
  | k :: rest, h => by
    rcases hd : hexDecodeChars k.data with _ | bs
    · exact ⟨MsigError.invalidKey, by simp [collectKeyBytes, hd]⟩
    · by_cases hcond : startsWith04 k = false ∨ bs.length ≠ 65
      · exact ⟨MsigError.invalidKey, by simp only [collectKeyBytes, hd]; rw [if_pos hcond]⟩
      · have hgk : goodKey k = true := by
          rw [goodKey, hd]
          push_neg at hcond
          obtain ⟨h04, hlen⟩ := hcond
          simp only [ne_eq, Bool.not_eq_false] at h04
          simp [h04, hlen]
        obtain ⟨k2, hk2, hbad⟩ := h
        rcases List.mem_cons.mp hk2 with he | ht
        · subst he
          rw [hgk] at hbad
          exact absurd hbad (by simp)
        · obtain ⟨e, he⟩ := collectKeyBytes_bad rest ⟨k2, ht, hbad⟩
          exact ⟨e, by simp only [collectKeyBytes, hd]; rw [if_neg hcond, he]⟩

/-- Claim C4: for a valid threshold and key list, `derive_multisig_address`
is invariant under any permutation of the key list, and its value is the
(hex) hash of the single byte `M` followed by the concatenated bytes of the
keys in sorted order. -/
theorem derive_perm_and_value (H : List Nat → String) (m : Nat)
    (keys keys2 : List String)
    (hperm : keys.Perm keys2)
    (hm1 : 1 ≤ m) (hm2 : m ≤ keys.length) (hnd : keys.Nodup) (hm3 : m ≤ 255)
    (hkeys : ∀ k ∈ keys, goodKey k = true) :
    derive_multisig_address H m keys = derive_multisig_address H m keys2
    ∧ derive_multisig_address H m keys =
      Except.ok (H (m :: (List.insertionSort strLe keys).flatMap
        fun k => (hexDecodeChars k.data).getD [])) := by
  refine ⟨derive_perm_invariant H m hperm, ?_⟩
  unfold derive_multisig_address
  rw [if_neg (not_not_intro ⟨hm1, hm2⟩), if_neg (by omega : ¬ keys.length = 0)]
  have hlen : (sortDedup keys).length = keys.length :=
    (sortDedup_length_eq_iff_nodup keys).mpr hnd
  rw [if_neg (not_not_intro hlen), if_neg (by omega : ¬ m > 255)]
  have hsd : sortDedup keys = List.insertionSort strLe keys := by
    unfold sortDedup
    rw [List.dedup_eq_self.mpr hnd]
  rw [hsd, collectKeyBytes_ok _ (fun k hk =>
    hkeys k ((List.perm_insertionSort strLe keys).subset hk))]

/-- A fixed stand-in for the byte-level SHA-256 hex digest in witnesses. -/
def Hbytes : List Nat → String := fun _ => "d"

/-- A well-formed uncompressed-point key: `04` followed by 128 zeros. -/
def kA : String := ⟨'0' :: '4' :: List.replicate 128 '0'⟩

/-- A second well-formed key, distinct from `kA` in its last digit. -/
def kB : String := ⟨'0' :: '4' :: (List.replicate 127 '0' ++ ['1'])⟩

set_option maxRecDepth 10000 in
theorem derive_perm_and_value_witness :
    ([kA, kB] : List String).Perm [kB, kA] ∧ 1 ≤ 1 ∧
      1 ≤ ([kA, kB] : List String).length ∧ ([kA, kB] : List String).Nodup ∧
      (1 : Nat) ≤ 255 ∧ (∀ k ∈ ([kA, kB] : List String), goodKey k = true) ∧
      derive_multisig_address Hbytes 1 [kA, kB] =
        derive_multisig_address Hbytes 1 [kB, kA] ∧
      derive_multisig_address Hbytes 1 [kA, kB] =
        Except.ok (Hbytes (1 :: (List.insertionSort strLe [kA, kB]).flatMap
          fun k => (hexDecodeChars k.data).getD [])) :=
  ⟨by decide, by decide, by decide, by decide, by decide, by decide,
    (derive_perm_and_value Hbytes 1 [kA, kB] [kB, kA] (by decide) (by decide)
      (by decide) (by decide) (by decide) (by decide)).1,
    (derive_perm_and_value Hbytes 1 [kA, kB] [kB, kA] (by decide) (by decide)
      (by decide) (by decide) (by decide) (by decide)).2⟩

/-- Claim C7: `derive_multisig_address` fails with `ValueError` whenever
the threshold is outside `1 ≤ M ≤ |keys|` (which subsumes an empty key
list), whenever the key list contains duplicates, whenever some key is not
a well-formed 65-byte `04`-prefixed uncompressed point, and whenever `M`
exceeds 255, the range of the single-byte threshold field. -/
theorem derive_validation (H : List Nat → String) (m : Nat) (keys : List String) :
    (¬(1 ≤ m ∧ m ≤ keys.length) →
      exceptFails (derive_multisig_address H m keys) = true)
    ∧ (¬ keys.Nodup → exceptFails (derive_multisig_address H m keys) = true)
    ∧ ((∃ k ∈ keys, goodKey k = false) →
      exceptFails (derive_multisig_address H m keys) = true)
    ∧ (255 < m → exceptFails (derive_multisig_address H m keys) = true) := by
  refine ⟨?_, ?_, ?_, ?_⟩
  · intro h
    unfold derive_multisig_address
    rw [if_pos h]
    rfl
  · intro hdup
    by_cases h1 : ¬(1 ≤ m ∧ m ≤ keys.length)
    · unfold derive_multisig_address
      rw [if_pos h1]
      rfl
    · push_neg at h1
      unfold derive_multisig_address
      rw [if_neg (not_not_intro h1), if_neg (by omega : ¬ keys.length = 0),
        if_pos (fun he => hdup ((sortDedup_length_eq_iff_nodup keys).mp he))]
      rfl
  · intro hbad
    by_cases h1 : ¬(1 ≤ m ∧ m ≤ keys.length)
    · unfold derive_multisig_address
      rw [if_pos h1]
      rfl
    · push_neg at h1
      by_cases h2 : (sortDedup keys).length ≠ keys.length
      · unfold derive_multisig_address
        rw [if_neg (not_not_intro h1), if_neg (by omega : ¬ keys.length = 0), if_pos h2]
        rfl
      · by_cases h3 : m > 255
        · unfold derive_multisig_address
          rw [if_neg (not_not_intro h1), if_neg (by omega : ¬ keys.length = 0),
            if_neg h2, if_pos h3]
          rfl
        · obtain ⟨k, hk, hbk⟩ := hbad
          obtain ⟨e, he⟩ := collectKeyBytes_bad (sortDedup keys)
            ⟨k, mem_sortDedup.mpr hk, hbk⟩
          unfold derive_multisig_address
          rw [if_neg (not_not_intro h1), if_neg (by omega : ¬ keys.length = 0),
            if_neg h2, if_neg h3, he]
          rfl
  · intro hm
    by_cases h1 : ¬(1 ≤ m ∧ m ≤ keys.length)
    · unfold derive_multisig_address
      rw [if_pos h1]
      rfl
    · push_neg at h1
      by_cases h2 : (sortDedup keys).length ≠ keys.length
      · unfold derive_multisig_address
        rw [if_neg (not_not_intro h1), if_neg (by omega : ¬ keys.length = 0), if_pos h2]
        rfl
      · unfold derive_multisig_address
        rw [if_neg (not_not_intro h1), if_neg (by omega : ¬ keys.length = 0),
          if_neg h2, if_pos (by omega : m > 255)]
        rfl

theorem derive_validation_witness :
    (¬(1 ≤ 0 ∧ 0 ≤ (["x"] : List String).length) ∧
      exceptFails (derive_multisig_address Hbytes 0 ["x"]) = true)
    ∧ (¬(["x", "x"] : List String).Nodup ∧
      exceptFails (derive_multisig_address Hbytes 1 ["x", "x"]) = true)
    ∧ ((∃ k ∈ (["x"] : List String), goodKey k = false) ∧
      exceptFails (derive_multisig_address Hbytes 1 ["x"]) = true)
    ∧ ((255 : Nat) < 300 ∧
      exceptFails (derive_multisig_address Hbytes 300 ["x"]) = true) :=
  ⟨⟨by decide, (derive_validation Hbytes 0 ["x"]).1 (by decide)⟩,
   ⟨by decide, (derive_validation Hbytes 1 ["x", "x"]).2.1 (by decide)⟩,
   ⟨by decide, (derive_validation Hbytes 1 ["x"]).2.2.1 (by decide)⟩,
   ⟨by decide, (derive_validation Hbytes 300 ["x"]).2.2.2 (by decide)⟩⟩

/-! ### Constructor behaviour (claim C8) -/

/-- Counterexample to claim C8: constructing a transaction with a threshold
of 5 over a duplicated, malformed, single authorized key and with no
recipient for the `standard` kind raises nothing — `__init__` contains no
validation at all; it returns the object, silently deduplicating and
sorting the key list. -/
theorem txInit_no_validation_counterexample :
    txInitE "f" (some 0) none 0 0 none none none none none none 5 ["x", "x"] []
        TX_STANDARD none 0 =
      Except.ok ⟨none, 0, "f", none, none, TX_STANDARD, none, 0, 0, none,
        none, none, none, 5, ["x"], []⟩ := by
  rfl

/-- Claim C8 as amended: `Transaction.__init__` never fails — for every
argument list, including structurally invalid group parameters and missing
kind-specific fields, construction succeeds; the only normalization it
performs is deduplicating and sorting the authorized key list. -/
theorem txInit_never_fails (fromA : String) (ts : Option Int) (toA : Option String)
    (amt fee : Int) (code : Option (List Nat)) (tgt fnm : Option String)
    (args : Option (List Nat)) (pk sg : Option String) (m : Int)
    (auth : List String) (sgs : List SignerInfo) (ty : String)
    (idh : Option String) (now : Int) :
    exceptFails (txInitE fromA ts toA amt fee code tgt fnm args pk sg m auth sgs ty idh now)
        = false
    ∧ (txInit fromA ts toA amt fee code tgt fnm args pk sg m auth sgs ty idh
        now).authorized_public_keys_hex = sortDedup auth
    ∧ List.Sorted strLe (txInit fromA ts toA amt fee code tgt fnm args pk sg m auth sgs ty
        idh now).authorized_public_keys_hex
    ∧ (txInit fromA ts toA amt fee code tgt fnm args pk sg m auth sgs ty idh
        now).authorized_public_keys_hex.Nodup := by
  have he : (txInit fromA ts toA amt fee code tgt fnm args pk sg m auth sgs ty idh
      now).authorized_public_keys_hex = sortDedup auth := by
    show (if auth = [] then [] else sortDedup auth) = sortDedup auth
    split
    next h => rw [h]; rfl
    next h => rfl
  exact ⟨rfl, he, he ▸ sortDedup_sorted auth, he ▸ sortDedup_nodup auth⟩

/-! ### Export encodings (claim C9) -/

/-- The transaction object stores identifier, keys and signatures as hex
text; this one carries the byte `0x00` both as its identifier and as its
contract code. -/
def tx9 : Transaction :=
  ⟨some (hexEncode [0]), 0, "ff", some (hexEncode [0]), some (hexEncode [0]),
    TX_CONTRACT_DEPLOY, none, 1, 1, some [0], none, none, none, 0, [], []⟩

/-- Claim C9 fails on the code: in one and the same exported record,
`to_dict_for_file` renders the identifier (and public key and signature)
bytes as hex text but the contract code bytes as base64 text, and the two
encodings disagree on the very same byte content — the byte-to-text
encoding differs between fields.  (The HTTP submission path in `client.py`
additionally renders identifier, signature and public key as base64,
differing from the file path.) -/
theorem export_encoding_mixed :
    (to_dict_for_file tx9).id_hex = some (hexEncode [0])
    ∧ (to_dict_for_file tx9).contract_code_bytes_b64 = some (b64Encode [0])
    ∧ hexEncode [0] ≠ b64Encode [0] := by
  decide

/-! ### Serialization round-trip (claim C10) -/

theorem decodeB64Field_roundtrip (bs : Option (List Nat)) (hne : bs ≠ some [])
    (hb : ∀ b ∈ bs.getD [], b < 256) :
    decodeB64Field (if bytesTruthy bs then some (b64Encode (bs.getD [])) else none)
      = some bs := by
  cases bs with
  | none => rfl
  | some l =>
    cases l with
    | nil => exact absurd rfl hne
    | cons x xs =>
      show decodeB64Field (some (b64Encode (x :: xs))) = some (some (x :: xs))
      have hrt := b64_roundtrip (x :: xs) (by simpa using hb)
      rcases hchars : b64EncodeChars (x :: xs) with _ | ⟨c, cs⟩
      · exact absurd hchars (b64EncodeChars_ne_nil _ (by simp))
      · show (match (b64Encode (x :: xs)).data with
          | [] => some none
          | _ :: _ =>
            match b64DecodeChars (b64Encode (x :: xs)).data with
            | none => none
            | some bs2 => some (some bs2)) = some (some (x :: xs))
        have hdata : (b64Encode (x :: xs)).data = c :: cs := hchars
        rw [hdata]
        have hrt2 : b64DecodeChars (c :: cs) = some (x :: xs) := by
          rw [← hchars]
          exact hrt
        rw [hrt2]

/-- Claim C10: for a transaction whose byte-string fields are each absent
or non-empty (with byte values in range, as Python bytes always are) and
whose authorized key list carries the constructor's normalization
invariant (sorted, no duplicates), writing the pending-transaction record
and reading it back reproduces the object exactly — every field, hence in
particular the canonical encoding and digest, is preserved. -/
theorem file_roundtrip (tx : Transaction)
    (hcode : tx.contract_code_bytes ≠ some [])
    (hargs : tx.arguments_bytes ≠ some [])
    (hcb : ∀ b ∈ tx.contract_code_bytes.getD [], b < 256)
    (hab : ∀ b ∈ tx.arguments_bytes.getD [], b < 256)
    (hsorted : List.Sorted strLe tx.authorized_public_keys_hex)
    (hnodup : tx.authorized_public_keys_hex.Nodup) :
    from_dict_for_file (to_dict_for_file tx) 0 = some tx := by
  have h1 := decodeB64Field_roundtrip tx.contract_code_bytes hcode hcb
  have h2 := decodeB64Field_roundtrip tx.arguments_bytes hargs hab
  have hauth : (if tx.authorized_public_keys_hex = [] then []
      else sortDedup tx.authorized_public_keys_hex) = tx.authorized_public_keys_hex := by
    split
    next h => rw [h]
    next h => exact sortDedup_eq_self hsorted hnodup
  unfold from_dict_for_file
  show (decodeB64Field (to_dict_for_file tx).contract_code_bytes_b64).bind
      (fun code => (decodeB64Field (to_dict_for_file tx).arguments_bytes_b64).bind
        (fun args => some (txInit (to_dict_for_file tx).from_address_hex
          (some (to_dict_for_file tx).timestamp) (to_dict_for_file tx).to_address_hex
          (to_dict_for_file tx).amount (to_dict_for_file tx).fee code
          (to_dict_for_file tx).target_contract_address_hex
          (to_dict_for_file tx).function_name args
          (to_dict_for_file tx).public_key_hex (to_dict_for_file tx).signature_hex
          (to_dict_for_file tx).required_signatures
          (to_dict_for_file tx).authorized_public_keys_hex
          (to_dict_for_file tx).signers (to_dict_for_file tx).tx_type
          (to_dict_for_file tx).id_hex 0))) = some tx
  have hc : (to_dict_for_file tx).contract_code_bytes_b64 =
      (if bytesTruthy tx.contract_code_bytes then
        some (b64Encode (tx.contract_code_bytes.getD [])) else none) := rfl
  have ha : (to_dict_for_file tx).arguments_bytes_b64 =
      (if bytesTruthy tx.arguments_bytes then
        some (b64Encode (tx.arguments_bytes.getD [])) else none) := rfl
  rw [hc, h1, ha, h2]
  simp only [Option.bind_eq_bind, Option.some_bind, Option.some.injEq]
  cases tx with
  | mk iv tv fv pv sv yv ov av ev cv gv nv bv rv auv sgv =>
    simp only [txInit, to_dict_for_file, Option.getD_some]
    simp only at hauth
    rw [hauth]

/-- A concrete transaction exercising every preserved field shape. -/
def tx10 : Transaction :=
  ⟨some "id", 7, "f", some "p", some "s", TX_CONTRACT_DEPLOY, none, 3, 1,
    some [0, 255, 16], none, none, none, 2, ["a", "b"], [⟨"a", "sg"⟩]⟩

theorem file_roundtrip_witness :
    tx10.contract_code_bytes ≠ some [] ∧ tx10.arguments_bytes ≠ some [] ∧
      (∀ b ∈ tx10.contract_code_bytes.getD [], b < 256) ∧
      (∀ b ∈ tx10.arguments_bytes.getD [], b < 256) ∧
      List.Sorted strLe tx10.authorized_public_keys_hex ∧
      tx10.authorized_public_keys_hex.Nodup ∧
      from_dict_for_file (to_dict_for_file tx10) 0 = some tx10 :=
  ⟨by decide, by decide, by decide, by decide, by decide, by decide,
    file_roundtrip tx10 (by decide) (by decide) (by decide) (by decide)
      (by decide) (by decide)⟩
